import Mathlib

/-!
# Verification of the NeuroMind AI study-assistant core logic

Shallow embedding of the deterministic core of the NeuroMind AI repository:

* the topic locator `get_text_for_topic` of `summarizer_backend.py`
  (regex-based line-anchored heading search, "next heading" end boundary,
  short-section fallback), modelled character-by-character over `List Char`;
* the topic locator `get_text_for_topic` of `app.py`
  (case-insensitive substring search with an "entire document" sentinel);
* the student classifier `classify_student`;
* the study-scheduler pipeline of `app.py` tab 4
  (`assign_priority_and_duration`, blank filtering, stable sort by score,
  round-robin assignment over the seven weekdays);
* the MCQ response-shape validation inside `generate_questions` of `qna.py`.

Python strings are modelled as `List Char` (code points); `\s` of the `re`
module and `str.strip()` are modelled on the six ASCII whitespace characters;
case-insensitive matching is modelled with `Char.toLower`, which is accurate
on the ASCII fragment.
-/

namespace NeuroMind

/-- The six ASCII characters matched by Python's `\s` and stripped by
`str.strip()`. -/
def isPySpace (c : Char) : Bool :=
  c = ' ' || c = '\t' || c = '\n' || c = '\r' || c = '\x0b' || c = '\x0c'

/-- Characters matched by the trailing `[\s\.]*` of the heading patterns in
`summarizer_backend.get_text_for_topic`. -/
def isSpaceOrDot (c : Char) : Bool :=
  isPySpace c || c = '.'

/-- Python `str.lower()` (ASCII fragment), also used to model the
`re.IGNORECASE` flag. -/
def lowerStr (s : List Char) : List Char :=
  s.map Char.toLower

/-- Python `str.strip()`: remove leading and trailing whitespace. -/
def pyStrip (s : List Char) : List Char :=
  ((s.dropWhile isPySpace).reverse.dropWhile isPySpace).reverse

/-- Python slice `s[a:e]` for `0 ≤ a`, `0 ≤ e` (both clamped to the length). -/
def extractSlice (s : List Char) (a e : Nat) : List Char :=
  (s.take e).drop a

/-!
## The regex matcher of `summarizer_backend.get_text_for_topic`

Both heading patterns in the source have the shape
`(?:^|\n|\r\n)\s*` + `re.escape(title.strip())` + `[\s\.]*`
compiled with `re.IGNORECASE | re.MULTILINE`.  Because the escaped literal
`t` never starts with whitespace (it has been `strip()`ed), the greedy `\s*`
and `[\s\.]*` runs are deterministic and the whole pattern can be matched
without backtracking.
-/

/-- Match the pattern body `\s* t [\s\.]*` against a suffix `s` of the
subject.  Returns the remaining suffix after the (greedy) match. -/
def matchBody (t s : List Char) : Option (List Char) :=
  let s1 := s.dropWhile isPySpace
  if lowerStr (s1.take t.length) = lowerStr t then
    some ((s1.drop t.length).dropWhile isSpaceOrDot)
  else none

/-- Try the three alternatives of `(?:^|\n|\r\n)` at the current position,
in the order the regex lists them.  `anchorOk` tells whether `^` matches
here (start of subject, or the previous character was `'\n'`, as for
`re.MULTILINE`). -/
def tryAlts (t s : List Char) (anchorOk : Bool) : Option (List Char) :=
  match (if anchorOk then matchBody t s else none) with
  | some r => some r
  | none =>
    match (match s with
           | '\n' :: s2 => matchBody t s2
           | _ => none) with
    | some r => some r
    | none =>
      match s with
      | '\r' :: '\n' :: s3 => matchBody t s3
      | _ => none

/-- `re.search` for the heading pattern of `t`: scan positions left to
right, return `(match.start(), match.end())` of the leftmost match. -/
def searchFrom (t : List Char) : List Char → Nat → Bool → Option (Nat × Nat)
  | s, pos, anchorOk =>
    match tryAlts t s anchorOk with
    | some rest => some (pos, pos + (s.length - rest.length))
    | none =>
      match s with
      | [] => none
      | c :: s2 => searchFrom t s2 (pos + 1) (c == '\n')

/-- The end-boundary loop of `summarizer_backend.get_text_for_topic`
(lines 140-151): walk `all_titles`, set a flag at titles equal (stripped,
case-insensitive) to the selected topic, and for each later title search
its pattern in `full_text[start_idx_content:]`; the first hit gives the
end index, and if no later title is found the section runs to the end. -/
def findEnd (full sel : List Char) (startIdx : Nat) :
    List (List Char) → Bool → Nat
  | [], _ => full.length
  | title :: rest, found =>
    if lowerStr (pyStrip title) = lowerStr (pyStrip sel) then
      findEnd full sel startIdx rest true
    else if found then
      match searchFrom (pyStrip title) (full.drop startIdx) 0 true with
      | some (relStart, _) => startIdx + relStart
      | none => findEnd full sel startIdx rest found
    else
      findEnd full sel startIdx rest found

/-- The narrowed (already `strip()`ed) section that
`summarizer_backend.get_text_for_topic` extracts when the start search
succeeds: text from `start_match.end()` to the end boundary. -/
def narrowedSpan (full sel : List Char) (titles : List (List Char)) :
    Option (List Char) :=
  match searchFrom (pyStrip sel) full 0 true with
  | none => none
  | some (_, contentStart) =>
    some (pyStrip (extractSlice full contentStart
      (findEnd full sel contentStart titles false)))

/-- `summarizer_backend.get_text_for_topic` (lines 128-156): guard against
empty inputs, find the section start, compute the end boundary, and fall
back to the whole document when the extracted section is shorter than 50
characters while the document exceeds 100. -/
def get_text_for_topic (full sel : List Char) (titles : List (List Char)) :
    List Char :=
  if sel = [] ∨ titles = [] ∨ full = [] then full
  else
    match narrowedSpan full sel titles with
    | none => full
    | some sec =>
      if sec.length < 50 ∧ 100 < full.length then full else sec

/-!
## The locator of `app.py` (lines 106-124)
-/

/-- Python `needle in hay` for strings. -/
def containsSub : List Char → List Char → Bool
  | n, h =>
    if n.isPrefixOf h then true
    else
      match h with
      | [] => false
      | _ :: h2 => containsSub n h2

/-- Scan the suffixes of `h` from position `pos` for the first occurrence
of `n`. -/
def subFindAux : List Char → List Char → Nat → Option Nat
  | n, h, pos =>
    if n.isPrefixOf h then some pos
    else
      match h with
      | [] => none
      | _ :: h2 => subFindAux n h2 (pos + 1)

/-- Python `hay.index(needle, start)` (as an `Option`; `str.index` raises
`ValueError` exactly when this returns `none`).  A `start` beyond the
length finds nothing. -/
def strFind (hay needle : List Char) (start : Nat) : Option Nat :=
  if hay.length < start then none
  else subFindAux needle (hay.drop start) start

/-- `app.get_text_for_topic`: return the whole text for the
"entire document" sentinel, otherwise slice from the first case-insensitive
occurrence of the selected topic to the first occurrence of the next title
of `all_titles` after it (searching from `start_index + 1`); every lookup
failure (`ValueError`) falls back to the whole text. -/
def get_text_for_topic_app (full sel : List Char)
    (titles : List (List Char)) : List Char :=
  if sel = [] ∨ containsSub "entire document".toList (lowerStr sel) = true then
    full
  else
    match strFind (lowerStr full) (lowerStr sel) 0 with
    | none => full
    | some startIdx =>
      match titles.findIdx? (fun t => t == sel) with
      | none => full
      | some k =>
        let endIdx :=
          if k + 1 < titles.length then
            match strFind (lowerStr full)
                (lowerStr (titles.getD (k + 1) [])) (startIdx + 1) with
            | some e => e
            | none => full.length
          else full.length
        extractSlice full startIdx endIdx

/-!
## Student classification (`app.py` lines 126-132,
`summarizer_backend.py` lines 81-92; the two copies are identical)
-/

/-- `classify_student(marks)`. -/
def classify_student (marks : Nat) : String :=
  if marks < 50 then "Needs Improvement"
  else if 50 ≤ marks ∧ marks < 70 then "Average"
  else if 70 ≤ marks ∧ marks < 85 then "Good"
  else if 85 ≤ marks ∧ marks < 95 then "Excellent"
  else "Advanced Learner"

/-!
## The study scheduler (`app.py` lines 187-194 and 427-450)
-/

/-- One row of the scheduler input: a subject name with its quiz score
(the UI constrains scores to integers 0-100). -/
structure Topic where
  name : String
  score : Nat
deriving DecidableEq

/-- `assign_priority_and_duration(score)` of `app.py`. -/
def assign_priority_and_duration (score : Nat) : String × Nat :=
  if score ≥ 80 then ("Low", 30)
  else if score ≥ 60 then ("Medium", 60)
  else ("High", 90)

/-- One schedule entry as appended by the tab-4 submit handler
(`{"topic": ..., "priority": ..., "recommended_duration": f"{d} min"}`). -/
structure SchedEntry where
  topic : String
  priority : String
  recommended_duration : String
deriving DecidableEq

/-- Build the entry appended for one subject. -/
def mkEntry (t : Topic) : SchedEntry :=
  let pd := assign_priority_and_duration t.score
  { topic := t.name
    priority := pd.1
    recommended_duration := toString pd.2 ++ " min" }

/-- `valid_topics = [topic for topic in ... if topic["name"].strip()]`. -/
def valid_topics (ts : List Topic) : List Topic :=
  ts.filter (fun t => !(pyStrip t.name.toList).isEmpty)

/-- `sorted_topics = sorted(valid_topics, key=lambda x: x['score'])`
(Python's `sorted` is stable; so is `List.mergeSort`). -/
def sorted_topics (ts : List Topic) : List Topic :=
  (valid_topics ts).mergeSort (fun a b => a.score ≤ b.score)

/-- The canonical week used by the scheduler. -/
def week_days : List String :=
  ["Monday", "Tuesday", "Wednesday", "Thursday", "Friday", "Saturday",
    "Sunday"]

/-- Append an entry to the `d`-th day bucket (models
`schedule[week_days[d]].append(entry)`). -/
def appendAt : Nat → SchedEntry → List (List SchedEntry) →
    List (List SchedEntry)
  | _, _, [] => []
  | 0, e, d :: ds => (d ++ [e]) :: ds
  | Nat.succ k, e, d :: ds => d :: appendAt k e ds

/-- The assignment loop: `for topic in sorted_topics: ...;
schedule[week_days[i % len(week_days)]].append(...); i += 1`. -/
def fillDays : List Topic → Nat → List (List SchedEntry) →
    List (List SchedEntry)
  | [], _, days => days
  | t :: ts, i, days =>
    fillDays ts (i + 1) (appendAt (i % week_days.length) (mkEntry t) days)

/-- The whole tab-4 scheduling computation: day buckets indexed in the
order of `week_days` (index 0 = Monday). -/
def schedule_tab4 (ts : List Topic) : List (List SchedEntry) :=
  fillDays (sorted_topics ts) 0 (List.replicate week_days.length [])

/-- Modelled from the spec: "walk the sorted list assigning each subject to
`weekday[i mod 7]` for increasing `i`" — the subjects that land on day `d`
when walking a list whose first element has walk index `i`. -/
def roundRobinPick : List Topic → Nat → Nat → List Topic
  | [], _, _ => []
  | t :: ts, i, d =>
    if i % 7 = d then t :: roundRobinPick ts (i + 1) d
    else roundRobinPick ts (i + 1) d

/-- Number of walk indexes `i, i+1, ..., i+n-1` that are `≡ d (mod 7)`. -/
def slotCount : Nat → Nat → Nat → Nat
  | 0, _, _ => 0
  | Nat.succ n, i, d => (if i % 7 = d then 1 else 0) + slotCount n (i + 1) d

/-!
## MCQ response validation (`qna.py` lines 217-230)
-/

/-- Parsed JSON values as produced by `json.loads`. -/
inductive PyVal where
  | str : String → PyVal
  | boolv : Bool → PyVal
  | intv : Int → PyVal
  | arr : List PyVal → PyVal
  | obj : List (String × PyVal) → PyVal

/-- Python `isinstance(q, dict)`. -/
def isDict : PyVal → Bool
  | .obj _ => true
  | _ => false

/-- Python `k in q` for a parsed JSON object. -/
def hasKey (k : String) : PyVal → Bool
  | .obj kvs => kvs.any (fun kv => kv.1 == k)
  | _ => false

/-- The per-item check of the `mcq` branch:
`isinstance(q, dict) and "question" in q and "options" in q and
"correct_answer" in q`. -/
def mcqItemOk (q : PyVal) : Bool :=
  isDict q && hasKey "question" q && hasKey "options" q &&
    hasKey "correct_answer" q

/-- The `mcq` validation of `generate_questions`: a parsed value is
accepted (returned unchanged) only when it is a list all of whose items
pass `mcqItemOk`; otherwise the whole result is discarded (`return []`). -/
def validate_mcq_questions : PyVal → List PyVal
  | .arr qs => if qs.all mcqItemOk then qs else []
  | _ => []

/-!
## Concrete inputs used by the spec scenarios
-/

/-- The document of the locator scenario. -/
def demoFull : List Char := "Intro\nhello world\nChapter2\nbye".toList

/-- The heading list of the locator scenario. -/
def demoTitles : List (List Char) := ["Intro".toList, "Chapter2".toList]

/-- The subject list of the scheduler scenario. -/
def demoTopics : List Topic :=
  [{ name := "Math", score := 40 }, { name := "Art", score := 90 },
    { name := "Bio", score := 65 }]

/-- A document longer than 100 characters whose "Head" section is only two
characters wide; exercises the short-section fallback. -/
def longFull : List Char :=
  "Head\nhi\nNext\n".toList ++ List.replicate 90 'z'

/-- Headings of `longFull`. -/
def longTitles : List (List Char) := ["Head".toList, "Next".toList]

/-- A document whose heading list names a "Missing" heading that does not
occur in the text, while a later heading ("Chap") does. -/
def gapFull : List Char :=
  "Intro\n".toList ++ List.replicate 20 'x' ++ "\nChap\nyy".toList

/-- Heading list for `gapFull`: the middle entry has no occurrence. -/
def gapTitles : List (List Char) :=
  ["Intro".toList, "Missing".toList, "Chap".toList]

/-!
## Slice and strip lemmas
-/

/-- `dropWhile` removes an initial segment: it is a `drop`. -/
theorem dropWhile_eq_drop (p : Char → Bool) :
    ∀ l : List Char, ∃ k, l.dropWhile p = l.drop k := by
  intro l
  induction l with
  | nil => exact ⟨0, rfl⟩
  | cons c l ih =>
    by_cases h : p c
    · obtain ⟨k, hk⟩ := ih
      exact ⟨k + 1, by simp [List.dropWhile_cons, h, hk]⟩
    · exact ⟨0, by simp [List.dropWhile_cons, h]⟩

/-- Stripping yields a slice of the original string. -/
theorem exists_strip_slice (l : List Char) :
    ∃ a e, pyStrip l = extractSlice l a e := by
  obtain ⟨k, hk⟩ := dropWhile_eq_drop isPySpace l
  obtain ⟨j, hj⟩ := dropWhile_eq_drop isPySpace (l.drop k).reverse
  refine ⟨k, k + ((l.drop k).length - j), ?_⟩
  rw [pyStrip, hk, hj, List.reverse_drop, List.reverse_reverse,
    List.length_reverse, List.take_drop]
  rfl

/-- A slice of a slice is a slice. -/
theorem slice_slice (s : List Char) (a e a2 e2 : Nat) :
    extractSlice (extractSlice s a e) a2 e2 =
      extractSlice s (a + a2) (min (a + e2) e) := by
  unfold extractSlice
  rw [List.take_drop, List.take_take, List.drop_drop]

/-- Stripping a slice yields a slice of the underlying string. -/
theorem exists_strip_slice_slice (s : List Char) (a e : Nat) :
    ∃ a2 e2, pyStrip (extractSlice s a e) = extractSlice s a2 e2 := by
  obtain ⟨a1, e1, h⟩ := exists_strip_slice (extractSlice s a e)
  exact ⟨a + a1, min (a + e1) e, by rw [h, slice_slice]⟩

/-- A string is the full slice of itself. -/
theorem self_slice (l : List Char) : l = extractSlice l 0 l.length := by
  simp [extractSlice]

/-!
## Claim theorems about the locator of `summarizer_backend.py`
-/

/-- Claim C3: whenever the narrowed section the locator would extract is
shorter than 50 characters while the full text exceeds 100 characters,
`get_text_for_topic` returns the full text instead of the narrowed
section. -/
theorem short_section_fallback (full sel : List Char)
    (titles : List (List Char)) (sec : List Char)
    (hspan : narrowedSpan full sel titles = some sec)
    (hshort : sec.length < 50) (hlong : 100 < full.length) :
    get_text_for_topic full sel titles = full := by
  unfold get_text_for_topic
  by_cases hg : sel = [] ∨ titles = [] ∨ full = []
  · rw [if_pos hg]
  · rw [if_neg hg, hspan]
    exact if_pos ⟨hshort, hlong⟩

/-- Witness for C3: on `longFull` (103 characters) the "Head" section is
the two-character string "hi", and the locator falls back to the whole
document. -/
theorem short_section_fallback_witness :
    narrowedSpan longFull "Head".toList longTitles = some "hi".toList ∧
      ("hi".toList).length < 50 ∧ 100 < longFull.length ∧
      get_text_for_topic longFull "Head".toList longTitles = longFull :=
  ⟨by decide, by decide, by decide,
    short_section_fallback longFull "Head".toList longTitles "hi".toList
      (by decide) (by decide) (by decide)⟩

/-- Claim C9: the locator always returns a contiguous slice of the input
document (the whole document being the trivial slice), and whenever the
start search fails it returns the full text. -/
theorem locator_substring_invariant (full sel : List Char)
    (titles : List (List Char)) :
    (∃ a e, get_text_for_topic full sel titles = extractSlice full a e) ∧
      (searchFrom (pyStrip sel) full 0 true = none →
        get_text_for_topic full sel titles = full) := by
  unfold get_text_for_topic
  by_cases hg : sel = [] ∨ titles = [] ∨ full = []
  · rw [if_pos hg]
    exact ⟨⟨0, full.length, self_slice full⟩, fun _ => rfl⟩
  · rw [if_neg hg]
    cases hns : narrowedSpan full sel titles with
    | none => exact ⟨⟨0, full.length, self_slice full⟩, fun _ => rfl⟩
    | some sec =>
      dsimp only
      constructor
      · by_cases hshort : sec.length < 50 ∧ 100 < full.length
        · rw [if_pos hshort]
          exact ⟨0, full.length, self_slice full⟩
        · rw [if_neg hshort]
          unfold narrowedSpan at hns
          cases hsf : searchFrom (pyStrip sel) full 0 true with
          | none => rw [hsf] at hns; cases hns
          | some pr =>
            rw [hsf] at hns
            obtain ⟨s0, a⟩ := pr
            simp only [Option.some.injEq] at hns
            obtain ⟨a2, e2, h2⟩ := exists_strip_slice_slice full a
              (findEnd full sel a titles false)
            exact ⟨a2, e2, by rw [← hns, h2]⟩
      · intro hnone
        unfold narrowedSpan at hns
        rw [hnone] at hns
        cases hns

/-- Witness for C9 at the scenario input: the result is some slice of the
document. -/
theorem locator_substring_invariant_witness :
    ∃ a e, get_text_for_topic demoFull "Intro".toList demoTitles =
      extractSlice demoFull a e :=
  (locator_substring_invariant demoFull "Intro".toList demoTitles).1

/-- Counterexample for claim C5: on the scenario input the locator returns
`"hello world"` — the final `strip()` removes the trailing newline — not
`"hello world\n"` as the claim states. -/
theorem locate_demo_counterexample :
    get_text_for_topic demoFull "Intro".toList demoTitles =
        "hello world".toList ∧
      "hello world".toList ≠ "hello world\n".toList :=
  ⟨by decide, by decide⟩

/-- Claim C5 (amended): on the scenario input the locator returns exactly
`"hello world"`, the text between the two heading anchors with the
surrounding whitespace stripped. -/
theorem locate_demo_scenario :
    get_text_for_topic demoFull "Intro".toList demoTitles =
      "hello world".toList := by decide

/-- Claim C6: any selection denoting the entire document — in `app.py`, any
selection containing "entire document" case-insensitively, which covers the
UI sentinels "Summarize Entire Document" and "Entire Document" — makes the
locator return the full text unchanged, for every document and heading
list. -/
theorem entire_document_identity (full : List Char)
    (titles : List (List Char)) (sel : List Char)
    (hsel : containsSub "entire document".toList (lowerStr sel) = true) :
    get_text_for_topic_app full sel titles = full := by
  unfold get_text_for_topic_app
  rw [if_pos (Or.inr hsel)]

/-- Witness for C6 at the concrete UI sentinel. -/
theorem entire_document_identity_witness :
    containsSub "entire document".toList
        (lowerStr "Summarize Entire Document".toList) = true ∧
      get_text_for_topic_app "abc".toList
        "Summarize Entire Document".toList [] = "abc".toList :=
  ⟨by decide, entire_document_identity _ _ _ (by decide)⟩

/-!
## The end boundary of `summarizer_backend.get_text_for_topic`
-/

/-- Titles before the first occurrence of the selected topic are ignored by
the end-boundary loop. -/
theorem findEnd_append_not_sel (full sel : List Char) (a : Nat)
    (pre rest : List (List Char))
    (hpre : ∀ x ∈ pre, lowerStr (pyStrip x) ≠ lowerStr (pyStrip sel)) :
    findEnd full sel a (pre ++ rest) false =
      findEnd full sel a rest false := by
  induction pre with
  | nil => rfl
  | cons x pre ih =>
    have hx := hpre x (by simp)
    simp only [List.cons_append, findEnd, if_neg hx, Bool.false_eq_true,
      if_false]
    exact ih (fun y hy => hpre y (by simp [hy]))

/-- After the flag is set, titles that equal the selected topic or whose
pattern does not occur after the section start are skipped by the
end-boundary loop. -/
theorem findEnd_skip_found (full sel : List Char) (a : Nat)
    (mid rest : List (List Char))
    (hmid : ∀ x ∈ mid, lowerStr (pyStrip x) = lowerStr (pyStrip sel) ∨
      searchFrom (pyStrip x) (full.drop a) 0 true = none) :
    findEnd full sel a (mid ++ rest) true =
      findEnd full sel a rest true := by
  induction mid with
  | nil => rfl
  | cons x mid ih =>
    have htail : ∀ y ∈ mid, lowerStr (pyStrip y) = lowerStr (pyStrip sel) ∨
        searchFrom (pyStrip y) (full.drop a) 0 true = none :=
      fun y hy => hmid y (by simp [hy])
    by_cases heq : lowerStr (pyStrip x) = lowerStr (pyStrip sel)
    · simp only [List.cons_append, findEnd, if_pos heq]
      exact ih htail
    · rcases hmid x (by simp) with hx | hx
      · exact absurd hx heq
      · simp only [List.cons_append, findEnd, if_neg heq, if_pos rfl, hx]
        exact ih htail

/-- Counterexample for claim C4: in `gapFull` the heading immediately
following "Intro" ("Missing") has no occurrence, yet the section does not
run to the end of the document — the loop continues to the later heading
"Chap" and ends there, returning only the 20 `x` characters.  The result
is neither the to-the-end span from the heading occurrence (`gapFull`
itself) nor the to-the-end span of the content after the heading line. -/
theorem locate_boundary_counterexample :
    get_text_for_topic gapFull "Intro".toList gapTitles =
        List.replicate 20 'x' ∧
      List.replicate 20 'x' ≠ gapFull ∧
      List.replicate 20 'x' ≠
        pyStrip (extractSlice gapFull 6 gapFull.length) :=
  ⟨by decide, by decide, by decide⟩

/-- Claim C4 (amended): when the selected heading has a line-anchored
occurrence (matched span ending at `a`) and `allHeadings` splits into
titles before the first entry matching the selection, that entry, titles
that are skipped (equal to the selection, or with no occurrence after the
start match), and a tail, then the returned section is the text from the
end of the start match to the boundary `e`, where `e` is the start of the
first found later heading's line-anchored match searched strictly after
the start match, and only when the tail is empty (no later heading found)
does the section run to the end of the document; the short-section
fallback is assumed not to trigger. -/
theorem locate_section_boundaries
    (full sel sel0 : List Char) (pre mid rest2 : List (List Char))
    (s0 a e : Nat)
    (hsel : sel ≠ []) (hfull : full ≠ [])
    (hstart : searchFrom (pyStrip sel) full 0 true = some (s0, a))
    (hpre : ∀ x ∈ pre, lowerStr (pyStrip x) ≠ lowerStr (pyStrip sel))
    (hsel0 : lowerStr (pyStrip sel0) = lowerStr (pyStrip sel))
    (hmid : ∀ x ∈ mid, lowerStr (pyStrip x) = lowerStr (pyStrip sel) ∨
      searchFrom (pyStrip x) (full.drop a) 0 true = none)
    (hcase : rest2 = [] ∧ e = full.length ∨
      ∃ t post rel rend, rest2 = t :: post ∧
        lowerStr (pyStrip t) ≠ lowerStr (pyStrip sel) ∧
        searchFrom (pyStrip t) (full.drop a) 0 true = some (rel, rend) ∧
        e = a + rel)
    (hfall : ¬((pyStrip (extractSlice full a e)).length < 50 ∧
      100 < full.length)) :
    get_text_for_topic full sel (pre ++ sel0 :: (mid ++ rest2)) =
      pyStrip (extractSlice full a e) := by
  have hend : findEnd full sel a (pre ++ sel0 :: (mid ++ rest2)) false = e := by
    rw [findEnd_append_not_sel full sel a pre _ hpre]
    simp only [findEnd, if_pos hsel0]
    rw [findEnd_skip_found full sel a mid rest2 hmid]
    rcases hcase with ⟨hnil, he⟩ | ⟨t, post, rel, rend, hr, hne, hs, he⟩
    · subst hnil he; rfl
    · subst hr he
      simp only [findEnd, if_neg hne, if_pos rfl, hs]
      exact if_pos trivial
  have hspan : narrowedSpan full sel (pre ++ sel0 :: (mid ++ rest2)) =
      some (pyStrip (extractSlice full a e)) := by
    unfold narrowedSpan
    rw [hstart]
    dsimp only
    rw [hend]
  have hg : ¬(sel = [] ∨ (pre ++ sel0 :: (mid ++ rest2)) = [] ∨ full = []) := by
    push_neg
    exact ⟨hsel, by simp, hfull⟩
  unfold get_text_for_topic
  rw [if_neg hg, hspan]
  exact if_neg hfall

/-- Witness for C4 (amended) at the scenario input: the "Intro" section of
`demoFull` is the stripped slice between offsets 6 and 17. -/
theorem locate_section_boundaries_witness :
    get_text_for_topic demoFull "Intro".toList demoTitles =
      pyStrip (extractSlice demoFull 6 17) :=
  locate_section_boundaries demoFull "Intro".toList "Intro".toList
    [] [] ["Chapter2".toList] 0 6 17 (by decide) (by decide) (by decide)
    (by intro x hx; cases hx) (by decide)
    (by intro x hx; cases hx)
    (Or.inr ⟨"Chapter2".toList, [], 11, 21, rfl, by decide, by decide, rfl⟩)
    (by decide)

/-!
## Scheduler lemmas
-/

/-- Appending into a day bucket does not change the number of days. -/
theorem length_appendAt (en : SchedEntry) :
    ∀ (days : List (List SchedEntry)) (k : Nat),
      (appendAt k en days).length = days.length := by
  intro days
  induction days with
  | nil => intro k; cases k <;> rfl
  | cons l ls ih =>
    intro k
    cases k with
    | zero => rfl
    | succ k2 => simp [appendAt, ih]

/-- Reading a day bucket after an append: only the targeted day grows. -/
theorem getD_appendAt (en : SchedEntry) :
    ∀ (days : List (List SchedEntry)) (k d : Nat), d < days.length →
      (appendAt k en days).getD d [] =
        if d = k then days.getD d [] ++ [en] else days.getD d [] := by
  intro days
  induction days with
  | nil => intro k d h; simp at h
  | cons l ls ih =>
    intro k d h
    cases k with
    | zero =>
      cases d with
      | zero => simp [appendAt]
      | succ d2 => simp [appendAt]
    | succ k2 =>
      cases d with
      | zero => simp [appendAt]
      | succ d2 =>
        have hd2 : d2 < ls.length := by simpa using h
        simp only [appendAt, List.getD_cons_succ]
        rw [ih k2 d2 hd2]
        simp [Nat.succ_inj]

/-- The assignment loop appends, to each day bucket, exactly the entries of
the walked subjects whose walk index is congruent to the day (mod 7). -/
theorem getD_fillDays :
    ∀ (ts : List Topic) (i : Nat) (days : List (List SchedEntry)) (d : Nat),
      days.length = 7 → d < 7 →
      (fillDays ts i days).getD d [] =
        days.getD d [] ++ (roundRobinPick ts i d).map mkEntry := by
  intro ts
  induction ts with
  | nil => intro i days d h7 hd; simp [fillDays, roundRobinPick]
  | cons t ts ih =>
    intro i days d h7 hd
    have hwk : week_days.length = 7 := rfl
    have hlen : (appendAt (i % week_days.length) (mkEntry t) days).length = 7 := by
      rw [length_appendAt, h7]
    rw [fillDays, ih (i + 1) _ d hlen hd,
      getD_appendAt _ days (i % week_days.length) d (by rw [h7]; exact hd)]
    rw [hwk]
    by_cases hc : i % 7 = d
    · rw [if_pos hc.symm]
      simp [roundRobinPick, hc, List.append_assoc]
    · rw [if_neg (fun h => hc h.symm)]
      simp [roundRobinPick, hc]

/-- Reading any day of the empty week gives the empty bucket. -/
theorem getD_replicate_nil :
    ∀ (n d : Nat), (List.replicate n ([] : List SchedEntry)).getD d [] = [] := by
  intro n
  induction n with
  | zero => intro d; cases d <;> rfl
  | succ n ih =>
    intro d
    cases d with
    | zero => rfl
    | succ d2 => simp [List.replicate, ih]

/-- Evaluation of the stable sort on the scenario subjects. -/
theorem sorted_topics_demo :
    sorted_topics demoTopics =
      [{ name := "Math", score := 40 }, { name := "Bio", score := 65 },
        { name := "Art", score := 90 }] := by
  rw [sorted_topics, show valid_topics demoTopics = demoTopics from by decide]
  simp [List.mergeSort, demoTopics]

/-!
## Claim theorems about the scheduler
-/

/-- Claim C1: the scheduler filters blank-named subjects, sorts the rest
ascending by score, and assigns the i-th subject of the sorted order to
weekday i mod 7 (index 0 = Monday); on the scenario input
Math/40, Art/90, Bio/65 this puts Math on Monday, Bio on Tuesday, Art on
Wednesday, and leaves the other four days empty. -/
theorem scheduler_round_robin :
    (∀ (ts : List Topic) (d : Nat), d < 7 →
        (schedule_tab4 ts).getD d [] =
          (roundRobinPick (sorted_topics ts) 0 d).map mkEntry) ∧
      (schedule_tab4 demoTopics).map (fun l => l.map SchedEntry.topic) =
        [["Math"], ["Bio"], ["Art"], [], [], [], []] := by
  constructor
  · intro ts d hd
    rw [schedule_tab4, getD_fillDays _ _ _ _ (by rfl) hd,
      getD_replicate_nil]
    simp
  · rw [schedule_tab4, sorted_topics_demo]
    decide

/-- Witness for C1: Tuesday (day index 1) of the scenario schedule is the
round-robin pick of the sorted subjects at index 1. -/
theorem scheduler_round_robin_witness :
    (schedule_tab4 demoTopics).getD 1 [] =
      (roundRobinPick (sorted_topics demoTopics) 0 1).map mkEntry :=
  scheduler_round_robin.1 demoTopics 1 (by decide)

/-- Claim C2: the priority-and-duration assignment used by the scheduler
returns Low/30 for scores of at least 80, Medium/60 for scores in
[60, 80), and High/90 for scores below 60. -/
theorem assign_priority_thresholds (s : Nat) :
    (80 ≤ s → assign_priority_and_duration s = ("Low", 30)) ∧
      (60 ≤ s → s < 80 → assign_priority_and_duration s = ("Medium", 60)) ∧
      (s < 60 → assign_priority_and_duration s = ("High", 90)) := by
  unfold assign_priority_and_duration
  refine ⟨fun h => ?_, fun h1 h2 => ?_, fun h => ?_⟩ <;>
    split_ifs <;> first | rfl | (exfalso; omega)

/-- Witness for C2 at the three threshold regions. -/
theorem assign_priority_thresholds_witness :
    assign_priority_and_duration 85 = ("Low", 30) ∧
      assign_priority_and_duration 65 = ("Medium", 60) ∧
      assign_priority_and_duration 40 = ("High", 90) :=
  ⟨(assign_priority_thresholds 85).1 (by decide),
    (assign_priority_thresholds 65).2.1 (by decide) (by decide),
    (assign_priority_thresholds 40).2.2 (by decide)⟩

/-!
## Day-load counting
-/

/-- The day-`d` pick of a walk has as many elements as there are walk
indexes congruent to `d`. -/
theorem roundRobinPick_length :
    ∀ (ts : List Topic) (i d : Nat),
      (roundRobinPick ts i d).length = slotCount ts.length i d := by
  intro ts
  induction ts with
  | nil => intro i d; rfl
  | cons t ts ih =>
    intro i d
    by_cases hc : i % 7 = d
    · simp [roundRobinPick, slotCount, hc, ih]
      omega
    · simp [roundRobinPick, slotCount, hc, ih]

/-- Peeling the last walked index off a slot count. -/
theorem slotCount_succ (n : Nat) :
    ∀ (i d : Nat), slotCount (n + 1) i d =
      slotCount n i d + (if (i + n) % 7 = d then 1 else 0) := by
  induction n with
  | zero => intro i d; simp [slotCount]
  | succ n ih =>
    intro i d
    rw [slotCount, ih (i + 1), slotCount]
    rw [show i + 1 + n = i + (n + 1) by omega]
    exact (Nat.add_assoc _ _ _).symm

/-- Closed form for the slot count of a walk starting at index 0. -/
theorem slotCount_zero_closed :
    ∀ (n d : Nat), d < 7 →
      slotCount n 0 d = n / 7 + (if d < n % 7 then 1 else 0) := by
  intro n
  induction n with
  | zero => intro d hd; simp [slotCount]
  | succ n ih =>
    intro d hd
    rw [slotCount_succ, ih d hd]
    simp only [Nat.zero_add]
    split_ifs <;> omega

/-- Claim C10: over `n` valid subjects every weekday receives either
`n / 7` (floor) or `(n + 6) / 7` (ceiling) schedule entries, and when
`n ≤ 7` no weekday receives more than one. -/
theorem scheduler_daily_load_balance (ts : List Topic) (d : Nat)
    (hd : d < 7) :
    (((schedule_tab4 ts).getD d []).length = (valid_topics ts).length / 7 ∨
        ((schedule_tab4 ts).getD d []).length =
          ((valid_topics ts).length + 6) / 7) ∧
      ((valid_topics ts).length ≤ 7 →
        ((schedule_tab4 ts).getD d []).length ≤ 1) := by
  have hsortlen : (sorted_topics ts).length = (valid_topics ts).length := by
    rw [sorted_topics, List.length_mergeSort]
  have hlen : ((schedule_tab4 ts).getD d []).length =
      (valid_topics ts).length / 7 +
        (if d < (valid_topics ts).length % 7 then 1 else 0) := by
    rw [schedule_tab4, getD_fillDays _ _ _ _ (by rfl) hd,
      getD_replicate_nil, List.nil_append, List.length_map,
      roundRobinPick_length, hsortlen, slotCount_zero_closed _ _ hd]
  constructor
  · rw [hlen]
    split_ifs <;> omega
  · intro h7
    rw [hlen]
    split_ifs <;> omega

/-- Witness for C10: on the scenario input, Monday's load is floor or
ceiling of 3/7. -/
theorem scheduler_daily_load_balance_witness :
    ((schedule_tab4 demoTopics).getD 0 []).length =
        (valid_topics demoTopics).length / 7 ∨
      ((schedule_tab4 demoTopics).getD 0 []).length =
        ((valid_topics demoTopics).length + 6) / 7 :=
  (scheduler_daily_load_balance demoTopics 0 (by decide)).1

/-!
## Claim theorems about the classifier and the MCQ validation
-/

/-- Claim C7: `classify_student` realises the five fixed threshold bands,
and the scenario scores 45, 92 and 97 classify as Needs Improvement,
Excellent and Advanced Learner respectively. -/
theorem classify_student_levels :
    (∀ m : Nat,
        (m < 50 → classify_student m = "Needs Improvement") ∧
          (50 ≤ m → m < 70 → classify_student m = "Average") ∧
          (70 ≤ m → m < 85 → classify_student m = "Good") ∧
          (85 ≤ m → m < 95 → classify_student m = "Excellent") ∧
          (95 ≤ m → classify_student m = "Advanced Learner")) ∧
      classify_student 45 = "Needs Improvement" ∧
      classify_student 92 = "Excellent" ∧
      classify_student 97 = "Advanced Learner" := by
  refine ⟨fun m => ?_, by decide, by decide, by decide⟩
  unfold classify_student
  refine ⟨fun h => ?_, fun h1 h2 => ?_, fun h1 h2 => ?_, fun h1 h2 => ?_,
    fun h => ?_⟩ <;>
    split_ifs <;> first | rfl | (exfalso; omega)

/-- Witness for C7 at the scenario scores. -/
theorem classify_student_levels_witness :
    classify_student 45 = "Needs Improvement" ∧
      classify_student 92 = "Excellent" ∧
      classify_student 97 = "Advanced Learner" :=
  ⟨(classify_student_levels.1 45).1 (by decide),
    (classify_student_levels.1 92).2.2.2.1 (by decide) (by decide),
    (classify_student_levels.1 97).2.2.2.2 (by decide)⟩

/-- Claim C8: the MCQ validation accepts a parsed array all of whose items
are objects carrying "question", "options" and "correct_answer" — the
parsed list is returned unchanged — and whenever some item lacks
"correct_answer" the whole result is discarded and the caller receives the
empty list. -/
theorem generate_questions_mcq_validation (qs : List PyVal) :
    ((∀ q ∈ qs, mcqItemOk q = true) →
        validate_mcq_questions (.arr qs) = qs) ∧
      (∀ q ∈ qs, hasKey "correct_answer" q = false →
        validate_mcq_questions (.arr qs) = []) := by
  constructor
  · intro h
    simp [validate_mcq_questions, List.all_eq_true.mpr h]
  · intro q hq hkey
    have hbad : mcqItemOk q = false := by
      simp [mcqItemOk, hkey]
    have hall : qs.all mcqItemOk = false := by
      cases hall : qs.all mcqItemOk
      · rfl
      · exact absurd (List.all_eq_true.mp hall q hq) (by simp [hbad])
    simp [validate_mcq_questions, hall]

/-- Witness for C8: a conforming single-item array round-trips, and the
same item with "correct_answer" removed is rejected with the empty
list. -/
theorem generate_questions_mcq_validation_witness :
    validate_mcq_questions (.arr [PyVal.obj [("question", .str "Q1"),
        ("options", .arr [.str "A", .str "B", .str "C", .str "D"]),
        ("correct_answer", .str "A")]]) =
      [PyVal.obj [("question", .str "Q1"),
        ("options", .arr [.str "A", .str "B", .str "C", .str "D"]),
        ("correct_answer", .str "A")]] ∧
      validate_mcq_questions (.arr [PyVal.obj [("question", .str "Q1"),
        ("options", .arr [.str "A", .str "B", .str "C", .str "D"])]]) =
        [] := by
  constructor
  · refine (generate_questions_mcq_validation _).1 ?_
    intro q hq
    rw [List.mem_singleton] at hq
    subst hq
    rfl
  · exact (generate_questions_mcq_validation _).2 _
      (List.mem_singleton.mpr rfl) rfl

end NeuroMind
